import Mathlib

/-!
Shallow embedding of the FinMaster repository (React front end plus two
serverless API handlers) and proofs about its specification.

Sources embedded here:
* the symbol normalizer `cleanAndValidateSymbols` (front end component);
* the retrying fetch wrapper `fetchWithTimeout`;
* the quote client `fetchLatestPrice` with its synthetic-data fallback;
* the recommendation logic inside `generateAnalysis`;
* the `/api/stock/[symbol]` proxy handler (the full variant that maps
  upstream failures to 400/404/408/503/500);
* the `/api/health` handler.

JavaScript numbers are modelled as rationals (`ℚ`), JS strings as Lean
`String`/`List Char`, absent (`undefined`) fields as `Option`, thrown JS
errors as explicit error values, and every `Math.random()` draw as an
explicit input.  Display-only formatting (`toFixed`, `toLocaleString`,
timestamps) is omitted: it affects rendering, not the computed values the
claims are about.
-/

set_option autoImplicit false

namespace FinMaster

/-! ### Character classes (ASCII, by code point) -/

/-- The character is one of the whitespace characters `String.prototype.trim`
removes, restricted to the ASCII range (space, tab, LF, VT, FF, CR). -/
def isJsWhitespace (c : Char) : Bool :=
  c.toNat = 32 || c.toNat = 9 || c.toNat = 10 || c.toNat = 11 || c.toNat = 12 || c.toNat = 13

/-- Matched by the regex class `['"]` (code points 39 and 34). -/
def isQuoteChar (c : Char) : Bool :=
  c.toNat = 39 || c.toNat = 34

/-- Uppercase letter `A`-`Z` (code points 65-90), the regex class `[A-Z]`. -/
def isUpperLetter (c : Char) : Bool :=
  65 ≤ c.toNat && c.toNat ≤ 90

/-- Matched by the regex class `[A-Za-z0-9:.]` used by the symbol cleaner. -/
def isAllowedChar (c : Char) : Bool :=
  isUpperLetter c || (97 ≤ c.toNat && c.toNat ≤ 122) ||
    (48 ≤ c.toNat && c.toNat ≤ 57) || c.toNat = 58 || c.toNat = 46

/-- `String.prototype.toUpperCase` on one ASCII character: lowercase letters
(code points 97-122) map down by 32, everything else is unchanged.  The
cleaner applies it only to characters kept by `isAllowedChar`, which are all
ASCII, so the non-ASCII case mappings of the JS function never arise. -/
def jsUpperChar (c : Char) : Char :=
  if 97 ≤ c.toNat ∧ c.toNat ≤ 122 then Char.ofNat (c.toNat - 32) else c

/-! ### JS string primitives on `List Char` -/

/-- `input.split(',')`: splitting the empty string gives `[""]`, and a
trailing comma produces a trailing empty piece, exactly as in JS. -/
def splitOnComma : List Char → List (List Char)
  | [] => [[]]
  | c :: cs =>
    if c = ',' then [] :: splitOnComma cs
    else
      match splitOnComma cs with
      | r :: rs => (c :: r) :: rs
      | [] => [[c]]

/-- `s.trim()` (ASCII whitespace): drop whitespace from both ends. -/
def jsTrim (l : List Char) : List Char :=
  ((l.dropWhile isJsWhitespace).reverse.dropWhile isJsWhitespace).reverse

/-- `pattern` occurs as a contiguous substring of `l`
(`String.prototype.includes`). -/
def hasSubstring (pat : List Char) : List Char → Bool
  | [] => pat.isPrefixOf ([] : List Char)
  | c :: t => pat.isPrefixOf (c :: t) || hasSubstring pat t

/-- `s.includes(pat)` on Lean strings. -/
def strIncludes (s pat : String) : Bool :=
  hasSubstring pat.data s.data

/-- `[...new Set(symbols)]`: remove duplicates keeping the first occurrence
of each element, in order.  `seen` accumulates the elements already kept. -/
def dedupFirstAux {α : Type} [DecidableEq α] (seen : List α) : List α → List α
  | [] => []
  | x :: xs =>
    if x ∈ seen then dedupFirstAux seen xs
    else x :: dedupFirstAux (x :: seen) xs

/-- First-occurrence deduplication, the order `new Set` iterates in. -/
def dedupFirst {α : Type} [DecidableEq α] (l : List α) : List α :=
  dedupFirstAux [] l

/-! ### Symbol normalizer (`cleanAndValidateSymbols`, front end) -/

/-- A run of `lo` to `hi` uppercase letters, i.e. the regex `[A-Z]{lo,hi}`
anchored on both sides. -/
def lettersRun (lo hi : Nat) (l : List Char) : Bool :=
  lo ≤ l.length && l.length ≤ hi && l.all isUpperLetter

/-- The regex `^[A-Z]{2,6}$` (`symbolPattern` in the source). -/
def matchesSymbolShape (l : List Char) : Bool :=
  lettersRun 2 6 l

/-- The regex `^[A-Z]{2,6}:[A-Z]{2,6}$` (`marketSymbolPattern` in the
source): a 2-6 letter run, a colon, then another 2-6 letter run. -/
def matchesMarketShape (l : List Char) : Bool :=
  match l.dropWhile (fun c => c ≠ ':') with
  | _ :: b => lettersRun 2 6 (l.takeWhile (fun c => c ≠ ':')) && lettersRun 2 6 b
  | [] => false

/-- The final validation step of the cleaner: keep the cleaned token only if
it matches one of the two accepted shapes, in the order the source tests
them (`marketSymbolPattern` first). -/
def keepIfValid (cleaned : List Char) : Option (List Char) :=
  if matchesMarketShape cleaned || matchesSymbolShape cleaned then some cleaned
  else none

/-- One comma-delimited piece of the user input, cleaned and validated:
empty pieces are dropped (`if (!symbol) return null`), the piece is trimmed,
quote characters and characters outside `[A-Za-z0-9:.]` are removed, the
result is upper-cased, and it is kept only if it matches one of the two
accepted shapes. -/
def cleanSymbolToken (piece : List Char) : Option (List Char) :=
  if piece = [] then none
  else
    keepIfValid
      ((((jsTrim piece).filter (fun c => !isQuoteChar c)).filter isAllowedChar).map jsUpperChar)

/-- `cleanAndValidateSymbols` on `List Char` pieces: split on commas, clean
and validate each piece, drop the failures, and deduplicate. -/
def cleanAndValidateSymbolsL (input : List Char) : List (List Char) :=
  dedupFirst ((splitOnComma input).filterMap cleanSymbolToken)

/-- The source function `cleanAndValidateSymbols` (front end, lines
162-188), on Lean strings. -/
def cleanAndValidateSymbols (input : String) : List String :=
  (cleanAndValidateSymbolsL input.data).map String.mk

/-- A validated symbol: matches `^[A-Z]{2,6}$` or `^[A-Z]{2,6}:[A-Z]{2,6}$`. -/
def validSymbolStr (s : String) : Bool :=
  matchesSymbolShape s.data || matchesMarketShape s.data

/-- `list.join(',')` on `List Char` pieces. -/
def joinComma : List (List Char) → List Char
  | [] => []
  | [x] => x
  | x :: y :: ys => x ++ ',' :: joinComma (y :: ys)

/-- `symbols.join(',')` on Lean strings. -/
def joinSymbols (ss : List String) : String :=
  String.mk (joinComma (ss.map String.data))

/-! ### Lemmas about the list primitives -/

theorem mem_of_mem_dedupFirstAux {α : Type} [DecidableEq α] :
    ∀ (l seen : List α) (y : α), y ∈ dedupFirstAux seen l → y ∈ l
  | [], _, _, h => by simp [dedupFirstAux] at h
  | x :: xs, seen, y, h => by
    rw [dedupFirstAux] at h
    by_cases hx : x ∈ seen
    · rw [if_pos hx] at h
      exact List.mem_cons_of_mem x (mem_of_mem_dedupFirstAux xs seen y h)
    · rw [if_neg hx] at h
      rcases List.mem_cons.mp h with h | h
      · exact h ▸ List.mem_cons_self x xs
      · exact List.mem_cons_of_mem x (mem_of_mem_dedupFirstAux xs (x :: seen) y h)

theorem dedupFirstAux_nodup {α : Type} [DecidableEq α] :
    ∀ (l seen : List α), (dedupFirstAux seen l).Nodup ∧
      ∀ y ∈ dedupFirstAux seen l, y ∉ seen
  | [], _ => by simp [dedupFirstAux]
  | x :: xs, seen => by
    rw [dedupFirstAux]
    by_cases hx : x ∈ seen
    · rw [if_pos hx]; exact dedupFirstAux_nodup xs seen
    · rw [if_neg hx]
      obtain ⟨hnd, hni⟩ := dedupFirstAux_nodup xs (x :: seen)
      refine ⟨List.nodup_cons.mpr ⟨fun hmem => ?_, hnd⟩, ?_⟩
      · exact (hni x hmem) (List.mem_cons_self x seen)
      · intro y hy
        rcases List.mem_cons.mp hy with h | h
        · exact h ▸ hx
        · exact fun hseen => (hni y h) (List.mem_cons_of_mem x hseen)

theorem dedupFirstAux_eq_self {α : Type} [DecidableEq α] :
    ∀ (l seen : List α), l.Nodup → (∀ y ∈ l, y ∉ seen) → dedupFirstAux seen l = l
  | [], _, _, _ => rfl
  | x :: xs, seen, hnd, hni => by
    rw [dedupFirstAux, if_neg (hni x (List.mem_cons_self x xs))]
    obtain ⟨hx, hxs⟩ := List.nodup_cons.mp hnd
    refine congrArg (x :: ·) (dedupFirstAux_eq_self xs (x :: seen) hxs ?_)
    intro y hy
    rw [List.mem_cons]
    rintro (rfl | hseen)
    · exact hx hy
    · exact hni y (List.mem_cons_of_mem x hy) hseen

theorem dropWhile_eq_self_of {α : Type} (p : α → Bool) :
    ∀ l : List α, (∀ c ∈ l, p c = false) → l.dropWhile p = l
  | [], _ => rfl
  | c :: t, h => by
    rw [List.dropWhile_cons, h c (List.mem_cons_self c t)]
    simp

theorem map_id_of {α : Type} (f : α → α) :
    ∀ l : List α, (∀ c ∈ l, f c = c) → l.map f = l
  | [], _ => rfl
  | c :: t, h => by
    rw [List.map_cons, h c (List.mem_cons_self c t),
      map_id_of f t fun x hx => h x (List.mem_cons_of_mem c hx)]

theorem filterMap_eq_self_of {α : Type} (f : α → Option α) :
    ∀ l : List α, (∀ c ∈ l, f c = some c) → l.filterMap f = l
  | [], _ => rfl
  | c :: t, h => by
    rw [List.filterMap_cons, h c (List.mem_cons_self c t),
      filterMap_eq_self_of f t fun x hx => h x (List.mem_cons_of_mem c hx)]

theorem dropWhile_head_false {α : Type} (p : α → Bool) :
    ∀ (l : List α) (d : α) (b : List α), l.dropWhile p = d :: b → p d = false
  | [], _, _, h => by simp at h
  | c :: t, d, b, h => by
    rw [List.dropWhile_cons] at h
    by_cases hc : p c
    · rw [if_pos hc] at h
      exact dropWhile_head_false p t d b h
    · rw [if_neg hc] at h
      cases h
      exact eq_false_of_ne_true hc

theorem splitOnComma_append :
    ∀ (p l r : List Char) (rs : List (List Char)), (∀ c ∈ p, c ≠ ',') →
      splitOnComma l = r :: rs → splitOnComma (p ++ l) = (p ++ r) :: rs
  | [], l, r, rs, _, h => by simpa using h
  | c :: p, l, r, rs, hp, h => by
    rw [List.cons_append, splitOnComma,
      if_neg (hp c (List.mem_cons_self c p)),
      splitOnComma_append p l r rs (fun x hx => hp x (List.mem_cons_of_mem c hx)) h]
    simp

theorem splitOnComma_joinComma :
    ∀ L : List (List Char), L ≠ [] → (∀ l ∈ L, ∀ c ∈ l, c ≠ ',') →
      splitOnComma (joinComma L) = L
  | [], h, _ => absurd rfl h
  | [x], _, hc => by
    have h0 : splitOnComma ([] : List Char) = [] :: [] := rfl
    have := splitOnComma_append x [] [] [] (hc x (List.mem_cons_self x [])) h0
    simpa [joinComma] using this
  | x :: y :: ys, _, hc => by
    have ih := splitOnComma_joinComma (y :: ys) (by simp)
      (fun l hl => hc l (List.mem_cons_of_mem x hl))
    have h1 : splitOnComma (',' :: joinComma (y :: ys)) = [] :: (y :: ys) := by
      rw [splitOnComma, if_pos rfl, ih]
    have := splitOnComma_append x (',' :: joinComma (y :: ys)) [] (y :: ys)
      (hc x (List.mem_cons_self x _)) h1
    simpa [joinComma] using this

/-! ### Character facts for validated symbols -/

theorem isUpperLetter_bounds {c : Char} (h : isUpperLetter c = true) :
    65 ≤ c.toNat ∧ c.toNat ≤ 90 := by
  simpa [isUpperLetter] using h

theorem upperOrColon_not_ws {c : Char} (h : isUpperLetter c = true ∨ c = ':') :
    isJsWhitespace c = false := by
  rcases h with h | rfl
  · obtain ⟨h1, h2⟩ := isUpperLetter_bounds h
    simp only [isJsWhitespace, Bool.or_eq_false_iff, decide_eq_false_iff_not]
    omega
  · decide

theorem upperOrColon_not_quote {c : Char} (h : isUpperLetter c = true ∨ c = ':') :
    isQuoteChar c = false := by
  rcases h with h | rfl
  · obtain ⟨h1, h2⟩ := isUpperLetter_bounds h
    simp only [isQuoteChar, Bool.or_eq_false_iff, decide_eq_false_iff_not]
    omega
  · decide

theorem upperOrColon_allowed {c : Char} (h : isUpperLetter c = true ∨ c = ':') :
    isAllowedChar c = true := by
  rcases h with h | rfl
  · simp [isAllowedChar, h]
  · decide

theorem upperOrColon_upper_fixed {c : Char} (h : isUpperLetter c = true ∨ c = ':') :
    jsUpperChar c = c := by
  rcases h with h | rfl
  · obtain ⟨h1, h2⟩ := isUpperLetter_bounds h
    rw [jsUpperChar, if_neg]
    omega
  · decide

theorem upperOrColon_ne_comma {c : Char} (h : isUpperLetter c = true ∨ c = ':') :
    c ≠ ',' := by
  rcases h with h | rfl
  · rintro rfl
    obtain ⟨h1, _⟩ := isUpperLetter_bounds h
    have h44 : (',' : Char).toNat = 44 := rfl
    omega
  · decide

theorem lettersRun_all {lo hi : Nat} {l : List Char} (h : lettersRun lo hi l = true) :
    ∀ c ∈ l, isUpperLetter c = true := by
  simp only [lettersRun, Bool.and_eq_true, List.all_eq_true, decide_eq_true_eq] at h
  exact h.2

theorem valid_shape_chars {l : List Char}
    (h : (matchesMarketShape l || matchesSymbolShape l) = true) :
    ∀ c ∈ l, isUpperLetter c = true ∨ c = ':' := by
  rcases (Bool.or_eq_true _ _).mp h with hm | hs
  · rw [matchesMarketShape] at hm
    cases hd : l.dropWhile (fun c => c ≠ ':') with
    | nil => rw [hd] at hm; exact absurd hm (by simp)
    | cons d b =>
      rw [hd] at hm
      obtain ⟨h1, h2⟩ := (Bool.and_eq_true _ _).mp hm
      have hdColon : d = ':' := by
        have hfalse := dropWhile_head_false _ l d b hd
        simpa using hfalse
      intro c hc
      have hsplit : l.takeWhile (fun c => c ≠ ':') ++ l.dropWhile (fun c => c ≠ ':') = l :=
        List.takeWhile_append_dropWhile _ l
      rw [← hsplit] at hc
      rcases List.mem_append.mp hc with hc | hc
      · exact Or.inl (lettersRun_all h1 c hc)
      · rw [hd] at hc
        rcases List.mem_cons.mp hc with rfl | hc
        · exact Or.inr hdColon
        · exact Or.inl (lettersRun_all h2 c hc)
  · exact fun c hc => Or.inl (lettersRun_all hs c hc)

theorem valid_shape_ne_nil {l : List Char}
    (h : (matchesMarketShape l || matchesSymbolShape l) = true) : l ≠ [] := by
  rintro rfl
  revert h
  decide

/-! ### The cleaner fixes already-valid symbols -/

theorem cleanSymbolToken_of_valid {l : List Char}
    (h : (matchesMarketShape l || matchesSymbolShape l) = true) :
    cleanSymbolToken l = some l := by
  have hchars := valid_shape_chars h
  have hne := valid_shape_ne_nil h
  have htrim : jsTrim l = l := by
    rw [jsTrim,
      dropWhile_eq_self_of _ l (fun c hc => upperOrColon_not_ws (hchars c hc)),
      dropWhile_eq_self_of _ l.reverse
        (fun c hc => upperOrColon_not_ws (hchars c (List.mem_reverse.mp hc))),
      List.reverse_reverse]
  have hq : l.filter (fun c => !isQuoteChar c) = l :=
    List.filter_eq_self.mpr fun c hc => by
      rw [upperOrColon_not_quote (hchars c hc)]; rfl
  have ha : l.filter isAllowedChar = l :=
    List.filter_eq_self.mpr fun c hc => upperOrColon_allowed (hchars c hc)
  have hu : l.map jsUpperChar = l :=
    map_id_of _ l fun c hc => upperOrColon_upper_fixed (hchars c hc)
  rw [cleanSymbolToken, if_neg hne, htrim, hq, ha, hu, keepIfValid, if_pos h]

theorem cleanSymbolToken_valid {p l : List Char} (h : cleanSymbolToken p = some l) :
    (matchesMarketShape l || matchesSymbolShape l) = true := by
  rw [cleanSymbolToken] at h
  split at h
  · exact absurd h (by simp)
  · rw [keepIfValid] at h
    split at h
    · cases h; assumption
    · exact absurd h (by simp)

theorem mem_cleanAndValidateSymbolsL_valid {input l : List Char}
    (h : l ∈ cleanAndValidateSymbolsL input) :
    (matchesMarketShape l || matchesSymbolShape l) = true := by
  have h1 := mem_of_mem_dedupFirstAux _ [] l h
  obtain ⟨p, _, hp⟩ := List.mem_filterMap.mp h1
  exact cleanSymbolToken_valid hp

theorem cleanAndValidateSymbolsL_joinComma (L : List (List Char))
    (hvalid : ∀ l ∈ L, (matchesMarketShape l || matchesSymbolShape l) = true)
    (hnodup : L.Nodup) :
    cleanAndValidateSymbolsL (joinComma L) = L := by
  cases L with
  | nil => rfl
  | cons x xs =>
    have hnc : ∀ l ∈ x :: xs, ∀ c ∈ l, c ≠ ',' := fun l hl c hc =>
      upperOrColon_ne_comma (valid_shape_chars (hvalid l hl) c hc)
    rw [cleanAndValidateSymbolsL, splitOnComma_joinComma (x :: xs) (by simp) hnc,
      filterMap_eq_self_of _ _ (fun l hl => cleanSymbolToken_of_valid (hvalid l hl)),
      dedupFirst, dedupFirstAux_eq_self _ [] hnodup (by simp)]

/-! ### Claim theorems about the symbol normalizer -/

/-- C1: for every input string, `cleanAndValidateSymbols` returns (without
failing — it is a total function) a duplicate-free list in which every
element matches `^[A-Z]{2,6}$` or `^[A-Z]{2,6}:[A-Z]{2,6}$`; the empty
string yields the empty list, and an input all of whose comma-delimited
pieces clean to nothing (an all-invalid input) yields the empty list. -/
theorem cleanAndValidateSymbols_sound (input : String) :
    (cleanAndValidateSymbols input).Nodup ∧
    (∀ s ∈ cleanAndValidateSymbols input, validSymbolStr s = true) ∧
    cleanAndValidateSymbols "" = [] ∧
    ((∀ piece ∈ splitOnComma input.data, cleanSymbolToken piece = none) →
      cleanAndValidateSymbols input = []) := by
  refine ⟨?_, ?_, by decide, ?_⟩
  · exact List.Nodup.map (fun a b hab => by injection hab)
      (dedupFirstAux_nodup ((splitOnComma input.data).filterMap cleanSymbolToken) []).1
  · intro s hs
    obtain ⟨l, hl, rfl⟩ := List.mem_map.mp hs
    have hvalid := mem_cleanAndValidateSymbolsL_valid hl
    rw [Bool.or_comm] at hvalid
    exact hvalid
  · intro hall
    rw [cleanAndValidateSymbols, cleanAndValidateSymbolsL,
      List.filterMap_eq_nil_iff.mpr hall]
    rfl

/-- Witness for C1: the hypothesis-bearing conjuncts applied at concrete
inputs — membership of `"AAPL"` in the output for `"aapl"`, and an input
whose pieces are all invalid. -/
theorem cleanAndValidateSymbols_sound_witness :
    validSymbolStr "AAPL" = true ∧ cleanAndValidateSymbols "!!, 123, x" = [] :=
  ⟨(cleanAndValidateSymbols_sound "aapl").2.1 "AAPL" (by decide),
   (cleanAndValidateSymbols_sound "!!, 123, x").2.2.2 (by decide)⟩

/-- C2 counterexample: on the input `" aapl , msft, bad!!, AAPL"` the
function does NOT return `["AAPL", "MSFT"]`: stripping the invalid
punctuation from `" bad!!"` leaves `"BAD"`, which matches `^[A-Z]{2,6}$`
and is therefore kept. -/
theorem cleanAndValidateSymbols_example_ne :
    ¬ cleanAndValidateSymbols " aapl , msft, bad!!, AAPL" = ["AAPL", "MSFT"] := by
  decide

/-- C2 (amended): `cleanAndValidateSymbols " aapl , msft, bad!!, AAPL"`
returns exactly `["AAPL", "MSFT", "BAD"]` — it deduplicates, upper-cases and
strips invalid punctuation, but the token `"bad!!"` is not dropped: after
cleaning it becomes the valid symbol `"BAD"`. -/
theorem cleanAndValidateSymbols_example :
    cleanAndValidateSymbols " aapl , msft, bad!!, AAPL" = ["AAPL", "MSFT", "BAD"] := by
  decide

/-- C9: `cleanAndValidateSymbols` is idempotent — joining its output with
commas and running it again returns the same list. -/
theorem cleanAndValidateSymbols_idem (input : String) :
    cleanAndValidateSymbols (joinSymbols (cleanAndValidateSymbols input)) =
      cleanAndValidateSymbols input := by
  have hvalid : ∀ l ∈ cleanAndValidateSymbolsL input.data,
      (matchesMarketShape l || matchesSymbolShape l) = true :=
    fun l hl => mem_cleanAndValidateSymbolsL_valid hl
  have hnodup : (cleanAndValidateSymbolsL input.data).Nodup :=
    (dedupFirstAux_nodup ((splitOnComma input.data).filterMap cleanSymbolToken) []).1
  have hdata : ((cleanAndValidateSymbolsL input.data).map String.mk).map String.data =
      cleanAndValidateSymbolsL input.data := by
    rw [List.map_map]
    exact map_id_of _ _ (fun _ _ => rfl)
  have hx : (joinSymbols (cleanAndValidateSymbols input)).data =
      joinComma (cleanAndValidateSymbolsL input.data) := by
    rw [cleanAndValidateSymbols, joinSymbols]
    show joinComma (((cleanAndValidateSymbolsL input.data).map String.mk).map String.data) = _
    rw [hdata]
  calc cleanAndValidateSymbols (joinSymbols (cleanAndValidateSymbols input))
      = (cleanAndValidateSymbolsL (joinComma (cleanAndValidateSymbolsL input.data))).map
          String.mk := by rw [cleanAndValidateSymbols, hx]
    _ = (cleanAndValidateSymbolsL input.data).map String.mk := by
          rw [cleanAndValidateSymbolsL_joinComma _ hvalid hnodup]
    _ = cleanAndValidateSymbols input := rfl

/-! ### JS errors and the retrying fetch wrapper (`fetchWithTimeout`) -/

/-- A thrown JS `Error`, reduced to its `name` and `message`. -/
structure JsError where
  name : String
  msg : String
deriving DecidableEq, Repr

/-- `a || b` on JS strings (`""` is falsy) with a string fallback. -/
def jsOrStr (a : Option String) (b : String) : String :=
  match a with
  | some s => if s = "" then b else s
  | none => b

/-- The error classification of the last retry attempt in
`fetchWithTimeout`: an `AbortError` becomes the timeout message, an error
whose message contains `Failed to fetch` or `NetworkError` becomes the
network/CORS message, and any other error is rethrown unchanged. -/
def classifyError (name msg : String) : JsError :=
  if name = "AbortError" then
    ⟨"Error", "Request timeout - API took too long to respond"⟩
  else if strIncludes msg "Failed to fetch" || strIncludes msg "NetworkError" then
    ⟨"Error", "Network Error - Check CORS settings or API availability"⟩
  else ⟨name, msg⟩

/-- The parsed JSON body of a successful `/api/stock/{symbol}` response, as
`fetchLatestPrice` reads it.  `none` models an absent (`undefined`) field. -/
structure StockApiBody where
  currentPrice : Option ℚ
  previousClose : Option ℚ
  fiftyTwoWeekHigh : Option ℚ
  fiftyTwoWeekLow : Option ℚ
  currency : Option String
  exchangeName : Option String
  symbol : Option String
  regularMarketVolume : Option Int
deriving DecidableEq, Repr

/-- An HTTP response as `fetchLatestPrice` consumes it: the `ok` flag,
status line, the raw text read on the error path, and the parsed body. -/
structure ApiResponse where
  ok : Bool
  status : Nat
  statusText : String
  errorText : String
  body : StockApiBody
deriving DecidableEq, Repr

/-- What one call to the browser `fetch` does inside the retry loop. -/
inductive FetchAttempt where
  | success (r : ApiResponse)
  | failure (name msg : String)
deriving DecidableEq, Repr

/-- The observable outcome of `fetchWithTimeout`: a response, a thrown
(classified) error, or the `undefined` the JS function returns when the
retry loop body never runs (`retryAttempts = 0`). -/
inductive FetchResult where
  | got (r : ApiResponse)
  | threw (e : JsError)
  | returnedUndefined
deriving DecidableEq, Repr

/-- A trace of one `fetchWithTimeout` call: its result, how many `fetch`
attempts were made, and the delays (in ms) slept between attempts. -/
structure FetchTrace where
  result : FetchResult
  attemptsMade : Nat
  waits : List Nat
deriving DecidableEq, Repr

/-- The retry loop of `fetchWithTimeout` (front end, lines 45-79).
`attempt` is the current 0-based loop index, `remaining` the number of loop
iterations still allowed, `outcomes k` what the `k`-th `fetch` call does.
On a failure that is not the last attempt the loop sleeps
`1000 * (attempt + 1)` ms and retries; on the last attempt it throws the
classified error. -/
def fetchGo (outcomes : Nat → FetchAttempt) : Nat → Nat → FetchTrace
  | _, 0 => ⟨.returnedUndefined, 0, []⟩
  | attempt, remaining + 1 =>
    match outcomes attempt with
    | .success r => ⟨.got r, 1, []⟩
    | .failure name msg =>
      match remaining with
      | 0 => ⟨.threw (classifyError name msg), 1, []⟩
      | r + 1 =>
        let rest := fetchGo outcomes (attempt + 1) (r + 1)
        ⟨rest.result, rest.attemptsMade + 1, (1000 * (attempt + 1)) :: rest.waits⟩

/-- `fetchWithTimeout` with `retryAttempts` configured attempts (the source
default is 2). -/
def fetchWithTimeoutRun (retryAttempts : Nat) (outcomes : Nat → FetchAttempt) : FetchTrace :=
  fetchGo outcomes 0 retryAttempts

/-- Unfolding equation for `fetchGo` at a positive iteration budget. -/
theorem fetchGo_succ (o : Nat → FetchAttempt) (a rem : Nat) :
    fetchGo o a (rem + 1) =
      match o a with
      | .success r => ⟨.got r, 1, []⟩
      | .failure name msg =>
        match rem with
        | 0 => ⟨.threw (classifyError name msg), 1, []⟩
        | r + 1 =>
          let rest := fetchGo o (a + 1) (r + 1)
          ⟨rest.result, rest.attemptsMade + 1, (1000 * (a + 1)) :: rest.waits⟩ := by
  rw [fetchGo]

theorem fetchGo_attempts_le (o : Nat → FetchAttempt) :
    ∀ (r a : Nat), (fetchGo o a r).attemptsMade ≤ r
  | 0, _ => Nat.le_refl 0
  | r + 1, a => by
    rw [fetchGo_succ]
    cases h : o a with
    | success resp => simp
    | failure nm ms =>
      cases r with
      | zero => simp
      | succ u =>
        have ih := fetchGo_attempts_le o (u + 1) (a + 1)
        dsimp only
        omega

theorem fetchGo_attempts_pos (o : Nat → FetchAttempt) :
    ∀ (r a : Nat), 1 ≤ r → 1 ≤ (fetchGo o a r).attemptsMade
  | r + 1, a, _ => by
    rw [fetchGo_succ]
    cases h : o a with
    | success resp => simp
    | failure nm ms =>
      cases r with
      | zero => simp
      | succ u => dsimp only; omega

theorem fetchGo_waits (o : Nat → FetchAttempt) :
    ∀ (r a : Nat),
      (fetchGo o a r).waits =
        (List.range ((fetchGo o a r).attemptsMade - 1)).map (fun k => 1000 * (a + k + 1))
  | 0, a => rfl
  | r + 1, a => by
    rw [fetchGo_succ]
    cases h : o a with
    | success resp => rfl
    | failure nm ms =>
      cases r with
      | zero => rfl
      | succ u =>
        have ih := fetchGo_waits o (u + 1) (a + 1)
        have hpos : 1 ≤ (fetchGo o (a + 1) (u + 1)).attemptsMade :=
          fetchGo_attempts_pos o (u + 1) (a + 1) (by omega)
        dsimp only
        rw [ih]
        obtain ⟨t, ht⟩ : ∃ t, (fetchGo o (a + 1) (u + 1)).attemptsMade = t + 1 :=
          ⟨_, (Nat.succ_pred_eq_of_pos hpos).symm⟩
        rw [ht]
        simp only [Nat.add_sub_cancel]
        rw [List.range_succ_eq_map, List.map_cons, List.map_map]
        refine congrArg₂ (· :: ·) (by omega) ?_
        refine List.map_congr_left fun k _ => ?_
        show 1000 * (a + 1 + k + 1) = 1000 * (a + (k + 1) + 1)
        omega

theorem fetchGo_all_fail (o : Nat → FetchAttempt) :
    ∀ (r a : Nat) (name msg : String), 1 ≤ r →
      (∀ j, j < r → ∃ nm ms, o (a + j) = .failure nm ms) →
      o (a + (r - 1)) = .failure name msg →
      (fetchGo o a r).result = .threw (classifyError name msg)
  | 1, a, name, msg, _, _, hlast => by
    have h0 : o a = .failure name msg := by simpa using hlast
    rw [fetchGo_succ, h0]
  | r + 2, a, name, msg, _, hall, hlast => by
    obtain ⟨nm, ms, h0⟩ := hall 0 (by omega)
    have h0c : o a = .failure nm ms := by simpa using h0
    rw [fetchGo_succ, h0c]
    dsimp only
    refine fetchGo_all_fail o (r + 1) (a + 1) name msg (by omega) ?_ ?_
    · intro j hj
      obtain ⟨nm2, ms2, hj2⟩ := hall (j + 1) (by omega)
      exact ⟨nm2, ms2, by rw [show a + 1 + j = a + (j + 1) by omega]; exact hj2⟩
    · rw [show a + 1 + (r + 1 - 1) = a + (r + 2 - 1) by omega]
      exact hlast

/-- C5: `fetchWithTimeout` makes at most `retryAttempts` fetch attempts
(the configured retry count, default 2), sleeps exactly
`1000 ms × attemptNumber` between consecutive attempts, and when every
attempt fails it surfaces the classification of the final attempt's error:
the timeout message for an `AbortError`, the network/CORS message when the
message contains `Failed to fetch` or `NetworkError`, and the original
error otherwise. -/
theorem fetchWithTimeout_spec (retryAttempts : Nat) (outcomes : Nat → FetchAttempt) :
    (fetchWithTimeoutRun retryAttempts outcomes).attemptsMade ≤ retryAttempts ∧
    (fetchWithTimeoutRun retryAttempts outcomes).waits =
      (List.range ((fetchWithTimeoutRun retryAttempts outcomes).attemptsMade - 1)).map
        (fun k => 1000 * (k + 1)) ∧
    (∀ name msg, 1 ≤ retryAttempts →
      (∀ j, j < retryAttempts → ∃ nm ms, outcomes j = .failure nm ms) →
      outcomes (retryAttempts - 1) = .failure name msg →
      (fetchWithTimeoutRun retryAttempts outcomes).result = .threw (classifyError name msg)) ∧
    (∀ msg, classifyError "AbortError" msg =
      ⟨"Error", "Request timeout - API took too long to respond"⟩) ∧
    (∀ name msg, name ≠ "AbortError" →
      (strIncludes msg "Failed to fetch" || strIncludes msg "NetworkError") = true →
      classifyError name msg =
        ⟨"Error", "Network Error - Check CORS settings or API availability"⟩) ∧
    (∀ name msg, name ≠ "AbortError" →
      strIncludes msg "Failed to fetch" = false → strIncludes msg "NetworkError" = false →
      classifyError name msg = ⟨name, msg⟩) := by
  refine ⟨fetchGo_attempts_le outcomes retryAttempts 0, ?_, ?_, ?_, ?_, ?_⟩
  · have h := fetchGo_waits outcomes retryAttempts 0
    rw [fetchWithTimeoutRun, h]
    exact List.map_congr_left fun k _ => by omega
  · intro name msg h1 hall hlast
    refine fetchGo_all_fail outcomes retryAttempts 0 name msg h1 ?_ ?_
    · intro j hj
      simpa using hall j hj
    · simpa using hlast
  · intro msg
    rw [classifyError, if_pos rfl]
  · intro name msg hname hnet
    rw [classifyError, if_neg hname, if_pos hnet]
  · intro name msg hname h1 h2
    rw [classifyError, if_neg hname, if_neg (by simp [h1, h2])]

/-- Witness for C5: with two attempts that both fail with an `AbortError`,
the call makes both attempts, sleeps 1000 ms between them, and throws the
timeout error. -/
theorem fetchWithTimeout_spec_witness :
    (fetchWithTimeoutRun 2 (fun _ => .failure "AbortError" "x")).result =
      .threw ⟨"Error", "Request timeout - API took too long to respond"⟩ ∧
    (fetchWithTimeoutRun 2 (fun _ => .failure "AbortError" "x")).waits = [1000] := by
  have h := fetchWithTimeout_spec 2 (fun _ => .failure "AbortError" "x")
  refine ⟨?_, ?_⟩
  · have h3 := h.2.2.1 "AbortError" "x" (by omega)
      (fun j _ => ⟨"AbortError", "x", rfl⟩) rfl
    rw [h3, h.2.2.2.1 "x"]
  · rw [h.2.1]
    decide

/-! ### Quote client (`fetchLatestPrice`, front end lines 190-257) -/

/-- The Quote record built by `fetchLatestPrice`.  Numeric fields hold the
values before display formatting (`formatCurrency`/`formatVolume` only
round and render them); `marketCapB` is `none` for the live path (rendered
`N/A`) and the random billions figure for the simulated path. -/
structure Quote where
  price : ℚ
  high52Week : ℚ
  low52Week : ℚ
  yearPerformance : ℚ
  previousClose : ℚ
  currency : String
  exchangeName : String
  symbol : String
  marketCapB : Option ℚ
  volume : Int
  isSimulated : Bool
  errorDetails : Option String
deriving DecidableEq, Repr

/-- The `Math.random()` draws consumed by the simulated-data fallback, one
field per call site, each a rational in `[0, 1)` supplied as an input. -/
structure SimDraws where
  basePriceDraw : ℚ
  variationDraw : ℚ
  highDraw : ℚ
  lowDraw : ℚ
  perfDraw : ℚ
  prevDraw : ℚ
  capDraw : ℚ
  volDraw : ℚ
deriving DecidableEq, Repr

/-- The synthetic Quote produced by the catch block of `fetchLatestPrice`:
a base price fixed for a few well-known tickers and random otherwise, random
52-week bounds, performance and previous close around it, currency and
exchange inferred from market-qualifier substrings, `isSimulated = true`,
and the triggering error message in `errorDetails`. -/
def simulatedQuote (symbol errMsg : String) (d : SimDraws) : Quote :=
  let basePrice : ℚ :=
    if strIncludes symbol "AAPL" then 175
    else if strIncludes symbol "MSFT" then 340
    else if strIncludes symbol "GOOGL" then 2800
    else if strIncludes symbol "STXRES" || strIncludes symbol "JSE:" then
      50 + d.basePriceDraw * 200
    else 20 + d.basePriceDraw * 300
  let mockPrice := basePrice * (4/5 + d.variationDraw * (2/5))
  { price := mockPrice
    high52Week := mockPrice * (6/5 + d.highDraw * (3/10))
    low52Week := mockPrice * (3/5 + d.lowDraw * (1/5))
    yearPerformance := (d.perfDraw - 3/10) * 50
    previousClose := mockPrice * (49/50 + d.prevDraw * (1/25))
    currency :=
      if strIncludes symbol "JSE:" || strIncludes symbol "STXRES" then "ZAR" else "USD"
    exchangeName :=
      if strIncludes symbol "JSE:" || strIncludes symbol "STXRES" then
        "Johannesburg Stock Exchange"
      else if strIncludes symbol "LON:" then "London Stock Exchange"
      else "NASDAQ/NYSE"
    symbol := symbol
    marketCapB := some (d.capDraw * 500 + 10)
    volume := Int.floor (d.volDraw * 10000000 + 100000)
    isSimulated := true
    errorDetails := some errMsg }

/-- `fetchLatestPrice`: on a response that is not ok, throws an
`HTTP {status}: {statusText}. {body}` error; on a body with no
`currentPrice`, throws the missing-price error; any caught error (including
one thrown by `fetchWithTimeout`) produces the simulated Quote.  On success
it computes the year performance from `previousClose` (0 when absent or 0,
since 0 is falsy in JS) and returns a live Quote. -/
def fetchLatestPrice (symbol : String) (out : FetchResult) (d : SimDraws) : Quote :=
  match out with
  | .threw e => simulatedQuote symbol e.msg d
  | .returnedUndefined =>
    simulatedQuote symbol "Cannot read properties of undefined (reading 'ok')" d
  | .got r =>
    if r.ok = false then
      simulatedQuote symbol
        ("HTTP " ++ toString r.status ++ ": " ++ r.statusText ++ ". " ++ r.errorText) d
    else
      match r.body.currentPrice with
      | none => simulatedQuote symbol "Invalid API response structure - missing current price" d
      | some currentPrice =>
        { price := currentPrice
          high52Week := r.body.fiftyTwoWeekHigh.getD 0
          low52Week := r.body.fiftyTwoWeekLow.getD 0
          yearPerformance :=
            match r.body.previousClose with
            | some p => if p ≠ 0 then (currentPrice - p) / p * 100 else 0
            | none => 0
          previousClose := r.body.previousClose.getD 0
          currency := jsOrStr r.body.currency "USD"
          exchangeName := jsOrStr r.body.exchangeName "Unknown Exchange"
          symbol := jsOrStr r.body.symbol symbol
          marketCapB := none
          volume := r.body.regularMarketVolume.getD 0
          isSimulated := false
          errorDetails := none }

/-- The error message built for a non-ok response is never empty: it starts
with `HTTP `. -/
theorem http_msg_ne_empty (s1 s2 s3 : String) :
    ("HTTP " ++ s1 ++ ": " ++ s2 ++ ". " ++ s3) ≠ "" := by
  intro h
  have hd : ("HTTP " ++ s1 ++ ": " ++ s2 ++ ". " ++ s3).data = "".data :=
    congrArg String.data h
  rw [String.data_append, String.data_append, String.data_append, String.data_append,
    String.data_append] at hd
  have hH : "HTTP ".data = 'H' :: "TTP ".data := rfl
  rw [hH] at hd
  simp at hd

/-- C3 counterexample: a fetch rejection whose own message is empty (not an
`AbortError`, not matching the network substrings) escapes `fetchWithTimeout`
unchanged, and `fetchLatestPrice` stores the EMPTY string as the error
detail — so the error detail is not always non-empty. -/
theorem fetchLatestPrice_empty_error_detail :
    (fetchWithTimeoutRun 2 (fun _ => .failure "TypeError" "")).result =
      .threw ⟨"TypeError", ""⟩ ∧
    (fetchLatestPrice "AAPL" (.threw ⟨"TypeError", ""⟩) ⟨0, 0, 0, 0, 0, 0, 0, 0⟩).isSimulated
      = true ∧
    (fetchLatestPrice "AAPL" (.threw ⟨"TypeError", ""⟩) ⟨0, 0, 0, 0, 0, 0, 0, 0⟩).errorDetails
      = some "" := by
  refine ⟨?_, ?_, ?_⟩ <;> decide

/-- C3 (amended): `fetchLatestPrice` never propagates an error.  On a thrown
fetch error it returns a simulated Quote whose error detail is exactly the
thrown message (non-empty only when that message is); on a non-ok response
or a response missing `currentPrice` it returns a simulated Quote with a
non-empty error detail; on an ok response carrying a price it returns a live
Quote (`isSimulated = false`). -/
theorem fetchLatestPrice_fallback (symbol : String) (out : FetchResult) (d : SimDraws) :
    (∀ e, out = .threw e →
      (fetchLatestPrice symbol out d).isSimulated = true ∧
      (fetchLatestPrice symbol out d).errorDetails = some e.msg) ∧
    (∀ r, out = .got r → r.ok = false →
      (fetchLatestPrice symbol out d).isSimulated = true ∧
      ∃ m, (fetchLatestPrice symbol out d).errorDetails = some m ∧ m ≠ "") ∧
    (∀ r, out = .got r → r.ok = true → r.body.currentPrice = none →
      (fetchLatestPrice symbol out d).isSimulated = true ∧
      (fetchLatestPrice symbol out d).errorDetails =
        some "Invalid API response structure - missing current price") ∧
    (∀ r, out = .got r → r.ok = true → r.body.currentPrice ≠ none →
      (fetchLatestPrice symbol out d).isSimulated = false) := by
  refine ⟨?_, ?_, ?_, ?_⟩
  · rintro e rfl
    exact ⟨rfl, rfl⟩
  · rintro r rfl hok
    rw [fetchLatestPrice, if_pos hok]
    exact ⟨rfl, _, rfl, http_msg_ne_empty _ _ _⟩
  · rintro r rfl hok hnone
    rw [fetchLatestPrice, if_neg (by simp [hok]), hnone]
    exact ⟨rfl, rfl⟩
  · rintro r rfl hok hsome
    rw [fetchLatestPrice, if_neg (by simp [hok])]
    cases hcp : r.body.currentPrice with
    | none => exact absurd hcp hsome
    | some c2 => rfl

/-- Witness for C3: the theorem applied to a stubbed upstream 500 — the
returned Quote is simulated with a non-empty error detail. -/
theorem fetchLatestPrice_fallback_witness :
    (fetchLatestPrice "AAPL"
        (.got ⟨false, 500, "Internal Server Error", "boom",
          ⟨none, none, none, none, none, none, none, none⟩⟩)
        ⟨0, 0, 0, 0, 0, 0, 0, 0⟩).isSimulated = true ∧
    ∃ m, (fetchLatestPrice "AAPL"
        (.got ⟨false, 500, "Internal Server Error", "boom",
          ⟨none, none, none, none, none, none, none, none⟩⟩)
        ⟨0, 0, 0, 0, 0, 0, 0, 0⟩).errorDetails = some m ∧ m ≠ "" :=
  (fetchLatestPrice_fallback "AAPL"
    (.got ⟨false, 500, "Internal Server Error", "boom",
      ⟨none, none, none, none, none, none, none, none⟩⟩)
    ⟨0, 0, 0, 0, 0, 0, 0, 0⟩).2.1 _ rfl rfl

/-- C7: on a successful response the quote client computes the year
performance as `(current − previousClose) / previousClose × 100` when
`previousClose` is present and non-zero, and 0 when it is absent or zero. -/
theorem fetchLatestPrice_yearPerf (symbol : String) (r : ApiResponse) (d : SimDraws)
    (c : ℚ) (hok : r.ok = true) (hc : r.body.currentPrice = some c) :
    (∀ p, r.body.previousClose = some p → p ≠ 0 →
      (fetchLatestPrice symbol (.got r) d).yearPerformance = (c - p) / p * 100) ∧
    ((r.body.previousClose = none ∨ r.body.previousClose = some 0) →
      (fetchLatestPrice symbol (.got r) d).yearPerformance = 0) := by
  rw [fetchLatestPrice, if_neg (by simp [hok]), hc]
  constructor
  · intro p hp hp0
    rw [hp]
    simp [hp0]
  · rintro (hp | hp) <;> simp [hp]

/-- Witness for C7: a current price of 150 over a previous close of 100 is a
50% year performance, and an absent previous close gives 0. -/
theorem fetchLatestPrice_yearPerf_witness :
    (fetchLatestPrice "AAPL"
        (.got ⟨true, 200, "OK", "",
          ⟨some 150, some 100, none, none, none, none, none, none⟩⟩)
        ⟨0, 0, 0, 0, 0, 0, 0, 0⟩).yearPerformance = 50 ∧
    (fetchLatestPrice "AAPL"
        (.got ⟨true, 200, "OK", "",
          ⟨some 150, none, none, none, none, none, none, none⟩⟩)
        ⟨0, 0, 0, 0, 0, 0, 0, 0⟩).yearPerformance = 0 := by
  constructor
  · rw [(fetchLatestPrice_yearPerf "AAPL" _ _ 150 rfl rfl).1 100 rfl (by norm_num)]
    norm_num
  · exact (fetchLatestPrice_yearPerf "AAPL" _ _ 150 rfl rfl).2 (Or.inl rfl)

/-! ### Recommendation logic (`generateAnalysis`, front end lines 289-292
and 304-310 — the same expression appears in the summary table and in the
detailed per-symbol section) -/

/-- The BUY/WAIT call for one symbol: `yearPerf` is the parsed year
performance of its Quote and `coinFlip` models `Math.random() > 0.5`. -/
def recommendation (yearPerf : ℚ) (coinFlip : Bool) : String :=
  if yearPerf > 10 then "BUY"
  else if yearPerf < -15 then "WAIT"
  else if coinFlip then "BUY" else "WAIT"

/-- C8: the recommendation is BUY whenever the parsed year performance
exceeds 10 and WAIT whenever it is below −15, and for every value in
between both outcomes are possible — the call depends on the coin flip, not
only on the data. -/
theorem recommendation_spec (p : ℚ) :
    (p > 10 → ∀ c, recommendation p c = "BUY") ∧
    (p < -15 → ∀ c, recommendation p c = "WAIT") ∧
    (-15 ≤ p → p ≤ 10 →
      recommendation p true = "BUY" ∧ recommendation p false = "WAIT") := by
  refine ⟨?_, ?_, ?_⟩
  · intro h c
    rw [recommendation, if_pos h]
  · intro h c
    rw [recommendation, if_neg (by linarith), if_pos h]
  · intro h1 h2
    have hn1 : ¬ p > 10 := by linarith
    have hn2 : ¬ p < -15 := by linarith
    exact ⟨by simp [recommendation, hn1, hn2], by simp [recommendation, hn1, hn2]⟩

/-- Witness for C8: each regime of the recommendation at a concrete
performance value — including both coin-flip outcomes at 0. -/
theorem recommendation_spec_witness :
    recommendation 20 false = "BUY" ∧ recommendation (-20) true = "WAIT" ∧
    recommendation 0 true = "BUY" ∧ recommendation 0 false = "WAIT" :=
  ⟨(recommendation_spec 20).1 (by norm_num) false,
   (recommendation_spec (-20)).2.1 (by norm_num) true,
   ((recommendation_spec 0).2.2 (by norm_num) (by norm_num)).1,
   ((recommendation_spec 0).2.2 (by norm_num) (by norm_num)).2⟩

/-! ### Quote Proxy handler (`/api/stock/[symbol]`, the full variant with
the 400/404/408/503/500 mapping — the handler of `part_001`, identical to
the second handler in `api/stock/[symbol].js`) -/

/-- The `meta` object of a Yahoo Finance chart result, the fields the
handler reads.  `none` models an absent (`undefined`) field. -/
structure ChartMeta where
  regularMarketPrice : Option ℚ
  previousClose : Option ℚ
  chartPreviousClose : Option ℚ
  fiftyTwoWeekHigh : Option ℚ
  fiftyTwoWeekLow : Option ℚ
  regularMarketVolume : Option Int
  currency : Option String
  fullExchangeName : Option String
  exchangeName : Option String
  marketState : Option String
  symbol : Option String
deriving DecidableEq, Repr

/-- One entry of `data.chart.result`. -/
structure ChartResult where
  meta : Option ChartMeta
deriving DecidableEq, Repr

/-- The `chart` object: its `result` array may itself be absent. -/
structure ChartData where
  result : Option (List ChartResult)
deriving DecidableEq, Repr

/-- The parsed upstream JSON body; `chart` may be absent. -/
structure ChartBody where
  chart : Option ChartData
deriving DecidableEq, Repr

/-- `data.chart && data.chart.result && data.chart.result[0]`. -/
def chartResult0 (b : ChartBody) : Option ChartResult :=
  match b.chart with
  | none => none
  | some cd =>
    match cd.result with
    | none => none
    | some l => l.head?

/-- What the upstream `fetch` inside the handler's try block does: rejects
(or is aborted), or responds with an `ok` flag, status line and parsed body. -/
inductive UpstreamOutcome where
  | threw (name msg : String)
  | response (ok : Bool) (status : Nat) (statusText : String) (body : ChartBody)
deriving DecidableEq, Repr

/-- The flattened stock JSON of a 200 proxy response. -/
structure StockOut where
  symbol : String
  currentPrice : ℚ
  previousClose : Option ℚ
  dayChange : ℚ
  dayChangePercent : ℚ
  fiftyTwoWeekHigh : Option ℚ
  fiftyTwoWeekLow : Option ℚ
  regularMarketVolume : Option Int
  currency : String
  exchangeName : Option String
  marketState : Option String
deriving DecidableEq, Repr

/-- A proxy response body: empty (preflight), an error object, or the
flattened stock data. -/
inductive ProxyBody where
  | empty
  | jsonError (error message : String) (symbol : Option String)
  | stock (s : StockOut)
deriving DecidableEq, Repr

/-- An HTTP response of the proxy. -/
structure ProxyResponse where
  status : Nat
  body : ProxyBody
deriving DecidableEq, Repr

/-- `a || b` on JS numbers where 0 (and `undefined`) is falsy, as in
`meta.previousClose || meta.chartPreviousClose`. -/
def jsOrQ (a b : Option ℚ) : Option ℚ :=
  match a with
  | some x => if x = 0 then b else some x
  | none => b

/-- Truthiness of a JS number field: present and non-zero. -/
def jsTruthyQ (a : Option ℚ) : Bool :=
  match a with
  | some x => x ≠ 0
  | none => false

/-- The regex `^[A-Z]{1,6}(\.[A-Z]{1,3})?$` the handler validates the
cleaned symbol against: 1-6 letters, optionally a dot and 1-3 letters. -/
def proxySymbolShape (l : List Char) : Bool :=
  match l.dropWhile (fun c => c ≠ '.') with
  | _ :: b => lettersRun 1 6 (l.takeWhile (fun c => c ≠ '.')) && lettersRun 1 3 b
  | [] => lettersRun 1 6 l

/-- The catch block of the handler: an `AbortError` maps to 408, an error
whose message contains `fetch` maps to 503, anything else to 500 carrying
the error message. -/
def proxyCatch (name msg cleanSymbol : String) : ProxyResponse :=
  if name = "AbortError" then
    ⟨408, .jsonError "Request timeout" "Yahoo Finance API request timed out" (some cleanSymbol)⟩
  else if strIncludes msg "fetch" then
    ⟨503, .jsonError "Service unavailable" "Unable to connect to Yahoo Finance API"
      (some cleanSymbol)⟩
  else ⟨500, .jsonError "Internal server error" msg (some cleanSymbol)⟩

/-- The 200 body built from the chart meta: `previousClose` falls back from
`previousClose` to `chartPreviousClose` (0 is falsy), day change and day
change percent guard on truthiness, string fields fall back on `""`/absent. -/
def proxyStockOut (cleanSymbol : String) (currentPrice : ℚ) (meta : ChartMeta) : StockOut :=
  let previousClose := jsOrQ meta.previousClose meta.chartPreviousClose
  let dayChange : ℚ :=
    if jsTruthyQ (some currentPrice) && jsTruthyQ previousClose then
      currentPrice - previousClose.getD 0
    else 0
  { symbol := jsOrStr meta.symbol cleanSymbol
    currentPrice := currentPrice
    previousClose := previousClose
    dayChange := dayChange
    dayChangePercent :=
      if jsTruthyQ previousClose then dayChange / previousClose.getD 0 * 100 else 0
    fiftyTwoWeekHigh := meta.fiftyTwoWeekHigh
    fiftyTwoWeekLow := meta.fiftyTwoWeekLow
    regularMarketVolume := meta.regularMarketVolume
    currency := jsOrStr meta.currency "USD"
    exchangeName :=
      match meta.fullExchangeName with
      | some s => if s = "" then meta.exchangeName else some s
      | none => meta.exchangeName
    marketState := meta.marketState }

/-- `symbol.trim().toUpperCase()` as the handler computes `cleanSymbol`. -/
def proxyCleanSymbol (sym : String) : String :=
  String.mk ((jsTrim sym.data).map jsUpperChar)

/-- The `/api/stock/[symbol]` handler (`part_001`, lines 4-152): CORS
preflight, method check, symbol validation, upstream call, response
reshaping, and the error-to-status mapping. -/
def stockHandler (method : String) (symbol : Option String) (up : UpstreamOutcome) :
    ProxyResponse :=
  if method = "OPTIONS" then ⟨200, .empty⟩
  else if method ≠ "GET" then
    ⟨405, .jsonError "Method not allowed" "Only GET requests are supported" none⟩
  else
    match symbol with
    | none =>
      ⟨400, .jsonError "Invalid symbol" "Symbol parameter is required and must be a string" none⟩
    | some sym =>
      if proxySymbolShape (proxyCleanSymbol sym).data = false then
        ⟨400, .jsonError "Invalid symbol format"
          "Symbol must be 1-6 letters, optionally followed by .XXX" none⟩
      else
        match up with
        | .threw name msg => proxyCatch name msg (proxyCleanSymbol sym)
        | .response ok status statusText body =>
          if ok = false then
            proxyCatch "Error"
              ("Yahoo Finance API error: " ++ toString status ++ " " ++ statusText)
              (proxyCleanSymbol sym)
          else
            match chartResult0 body with
            | none =>
              ⟨404, .jsonError "Symbol not found"
                ("No data available for symbol: " ++ proxyCleanSymbol sym)
                (some (proxyCleanSymbol sym))⟩
            | some res =>
              match res.meta with
              | none =>
                ⟨404, .jsonError "No market data"
                  ("Market data not available for symbol: " ++ proxyCleanSymbol sym)
                  (some (proxyCleanSymbol sym))⟩
              | some meta =>
                match meta.regularMarketPrice with
                | none =>
                  ⟨404, .jsonError "No market data"
                    ("Market data not available for symbol: " ++ proxyCleanSymbol sym)
                    (some (proxyCleanSymbol sym))⟩
                | some currentPrice =>
                  ⟨200, .stock (proxyStockOut (proxyCleanSymbol sym) currentPrice meta)⟩

/-- C4 counterexample: an upstream that RESPONDS (so the upstream is
reachable, not timed out) with a non-ok status whose status text contains
the substring `fetch` is mapped to 503, not to the 500 the claim assigns to
"any other error" — the catch block classifies by searching the composed
error message for `fetch`. -/
theorem stockHandler_fetch_text_counterexample :
    (stockHandler "GET" (some "AAPL") (.response false 500 "fetch" ⟨none⟩)).status = 503 ∧
    ¬ (stockHandler "GET" (some "AAPL") (.response false 500 "fetch" ⟨none⟩)).status = 500 := by
  refine ⟨?_, ?_⟩ <;> decide

/-- C4 (amended): for GET requests to the Quote Proxy — a missing symbol or
one whose cleaned form fails `^[A-Z]{1,6}(\.[A-Z]{1,3})?$` yields 400; a
well-formed upstream chart response yields 200 with `currentPrice` equal to
the upstream `regularMarketPrice`; an ok response with no chart result, no
meta, or no `regularMarketPrice` yields 404; an aborted upstream call
(timeout) yields 408; any other thrown error yields 503 when its message
contains `fetch` (which covers fetch rejections — unreachable upstream) and
500 otherwise; a non-ok upstream response yields 503 exactly when the
composed `Yahoo Finance API error: {status} {statusText}` message contains
`fetch`, and 500 otherwise. -/
theorem stockHandler_status_spec :
    (∀ up, (stockHandler "GET" none up).status = 400) ∧
    (∀ sym up, proxySymbolShape (proxyCleanSymbol sym).data = false →
      (stockHandler "GET" (some sym) up).status = 400) ∧
    (∀ sym st stx body res meta q,
      proxySymbolShape (proxyCleanSymbol sym).data = true →
      chartResult0 body = some res → res.meta = some meta →
      meta.regularMarketPrice = some q →
      stockHandler "GET" (some sym) (.response true st stx body) =
        ⟨200, .stock (proxyStockOut (proxyCleanSymbol sym) q meta)⟩ ∧
      (proxyStockOut (proxyCleanSymbol sym) q meta).currentPrice = q) ∧
    (∀ sym st stx body,
      proxySymbolShape (proxyCleanSymbol sym).data = true →
      (chartResult0 body = none ∨
        (∃ res, chartResult0 body = some res ∧ res.meta = none) ∨
        (∃ res meta, chartResult0 body = some res ∧ res.meta = some meta ∧
          meta.regularMarketPrice = none)) →
      (stockHandler "GET" (some sym) (.response true st stx body)).status = 404) ∧
    (∀ sym msg, proxySymbolShape (proxyCleanSymbol sym).data = true →
      (stockHandler "GET" (some sym) (.threw "AbortError" msg)).status = 408) ∧
    (∀ sym name msg, proxySymbolShape (proxyCleanSymbol sym).data = true →
      name ≠ "AbortError" → strIncludes msg "fetch" = true →
      (stockHandler "GET" (some sym) (.threw name msg)).status = 503) ∧
    (∀ sym name msg, proxySymbolShape (proxyCleanSymbol sym).data = true →
      name ≠ "AbortError" → strIncludes msg "fetch" = false →
      (stockHandler "GET" (some sym) (.threw name msg)).status = 500) ∧
    (∀ sym st stx body, proxySymbolShape (proxyCleanSymbol sym).data = true →
      (stockHandler "GET" (some sym) (.response false st stx body)).status =
        if strIncludes ("Yahoo Finance API error: " ++ toString st ++ " " ++ stx) "fetch" = true
        then 503 else 500) := by
  refine ⟨?_, ?_, ?_, ?_, ?_, ?_, ?_, ?_⟩
  · intro up
    rfl
  · intro sym up hbad
    rw [stockHandler.eq_def, if_neg (by decide), if_neg (by simp)]
    try dsimp only
    rw [if_pos hbad]
  · intro sym st stx body res meta q hshape hres hmeta hq
    refine ⟨?_, rfl⟩
    rw [stockHandler.eq_def, if_neg (by decide), if_neg (by simp)]
    try dsimp only
    rw [if_neg (by rw [hshape]; decide)]
    try dsimp only
    rw [if_neg (by decide), hres]
    try dsimp only
    rw [hmeta]
    try dsimp only
    rw [hq]
  · intro sym st stx body hshape hmiss
    rw [stockHandler.eq_def, if_neg (by decide), if_neg (by simp)]
    try dsimp only
    rw [if_neg (by rw [hshape]; decide)]
    try dsimp only
    rw [if_neg (by decide)]
    rcases hmiss with h404 | ⟨res, hres, hm⟩ | ⟨res, meta, hres, hm, hp⟩
    · rw [h404]
    · rw [hres]
      try dsimp only
      rw [hm]
    · rw [hres]
      try dsimp only
      rw [hm]
      try dsimp only
      rw [hp]
  · intro sym msg hshape
    rw [stockHandler.eq_def, if_neg (by decide), if_neg (by simp)]
    try dsimp only
    rw [if_neg (by rw [hshape]; decide)]
    try dsimp only
    rw [proxyCatch, if_pos rfl]
  · intro sym name msg hshape hname hfetch
    rw [stockHandler.eq_def, if_neg (by decide), if_neg (by simp)]
    try dsimp only
    rw [if_neg (by rw [hshape]; decide)]
    try dsimp only
    rw [proxyCatch, if_neg hname, if_pos hfetch]
  · intro sym name msg hshape hname hfetch
    rw [stockHandler.eq_def, if_neg (by decide), if_neg (by simp)]
    try dsimp only
    rw [if_neg (by rw [hshape]; decide)]
    try dsimp only
    rw [proxyCatch, if_neg hname, if_neg (by simp [hfetch])]
  · intro sym st stx body hshape
    rw [stockHandler.eq_def, if_neg (by decide), if_neg (by simp)]
    try dsimp only
    rw [if_neg (by rw [hshape]; decide)]
    try dsimp only
    rw [if_pos rfl, proxyCatch, if_neg (by decide)]
    by_cases hf : strIncludes ("Yahoo Finance API error: " ++ toString st ++ " " ++ stx) "fetch"
      = true
    · rw [if_pos hf, if_pos hf]
    · rw [if_neg hf, if_neg hf]

/-- Witness for C4: the amended theorem applied at concrete inputs — an
aborted upstream call yields 408, and an ok upstream body with an empty
chart result array yields 404. -/
theorem stockHandler_status_spec_witness :
    (stockHandler "GET" (some "AAPL") (.threw "AbortError" "aborted")).status = 408 ∧
    (stockHandler "GET" (some "AAPL") (.response true 200 "OK" ⟨some ⟨some []⟩⟩)).status
      = 404 :=
  ⟨stockHandler_status_spec.2.2.2.2.1 "AAPL" "aborted" (by decide),
   stockHandler_status_spec.2.2.2.1 "AAPL" 200 "OK" ⟨some ⟨some []⟩⟩ (by decide)
     (Or.inl rfl)⟩

/-! ### Health Check handler (`/api/health`) -/

/-- What the upstream probe (`fetch` of the AAPL chart) does: throws, or
responds with an `ok` flag. -/
inductive ProbeOutcome where
  | threw (msg : String)
  | responded (ok : Bool)
deriving DecidableEq, Repr

/-- A health response body: empty (preflight), the 405 error object, or the
health JSON (timestamp omitted as display-only real time). -/
inductive HealthBody where
  | empty
  | methodError (error : String)
  | healthJson (status yahooFinanceAPI cors version : String) (error : Option String)
deriving DecidableEq, Repr

/-- The `status` field of a health JSON body, when present. -/
def HealthBody.statusField : HealthBody → Option String
  | .healthJson s _ _ _ _ => some s
  | _ => none

/-- The `yahooFinanceAPI` field of a health JSON body, when present. -/
def HealthBody.yahooField : HealthBody → Option String
  | .healthJson _ y _ _ _ => some y
  | _ => none

/-- An HTTP response of the health endpoint. -/
structure HealthResponse where
  status : Nat
  body : HealthBody
deriving DecidableEq, Repr

/-- The `/api/health` handler (`api/health.js`, lines 4-49): preflight,
method check, then one upstream probe; both the success and the catch path
answer 200 with `status: "healthy"`, differing only in the
`yahooFinanceAPI` field (`"connected"` iff the probe response was ok) and
the optional `error` field. -/
def healthHandler (method : String) (probe : ProbeOutcome) : HealthResponse :=
  if method = "OPTIONS" then ⟨200, .empty⟩
  else if method ≠ "GET" then ⟨405, .methodError "Method not allowed"⟩
  else
    match probe with
    | .responded ok =>
      ⟨200, .healthJson "healthy" (if ok then "connected" else "error") "enabled" "1.0.0" none⟩
    | .threw msg =>
      ⟨200, .healthJson "healthy" "error" "enabled" "1.0.0" (some msg)⟩

/-- C6: every GET health request is answered 200 with body status
`"healthy"`, whatever the probe does; the `yahooFinanceAPI` field is
`"connected"` exactly when the probe response was ok, `"error"` in every
other case, and no other value occurs. -/
theorem healthHandler_always_healthy (probe : ProbeOutcome) :
    (healthHandler "GET" probe).status = 200 ∧
    (healthHandler "GET" probe).body.statusField = some "healthy" ∧
    ((healthHandler "GET" probe).body.yahooField = some "connected" ↔
      probe = .responded true) ∧
    ((healthHandler "GET" probe).body.yahooField = some "connected" ∨
      (healthHandler "GET" probe).body.yahooField = some "error") := by
  cases probe with
  | threw msg => exact ⟨rfl, rfl, by simp [healthHandler, HealthBody.yahooField], Or.inr rfl⟩
  | responded ok =>
    cases ok with
    | true => exact ⟨rfl, rfl, by simp [healthHandler, HealthBody.yahooField], Or.inl rfl⟩
    | false => exact ⟨rfl, rfl, by simp [healthHandler, HealthBody.yahooField], Or.inr rfl⟩

/-- Witness for C6: the theorem applied at a succeeding probe and at a
throwing probe — both yield 200, only the `yahooFinanceAPI` value differs. -/
theorem healthHandler_always_healthy_witness :
    (healthHandler "GET" (.responded true)).status = 200 ∧
    (healthHandler "GET" (.responded true)).body.yahooField = some "connected" ∧
    (healthHandler "GET" (.threw "boom")).status = 200 ∧
    (healthHandler "GET" (.threw "boom")).body.yahooField = some "error" := by
  refine ⟨(healthHandler_always_healthy (.responded true)).1,
    (healthHandler_always_healthy (.responded true)).2.2.1.mpr rfl,
    (healthHandler_always_healthy (.threw "boom")).1, ?_⟩
  rcases (healthHandler_always_healthy (.threw "boom")).2.2.2 with h | h
  · exact absurd ((healthHandler_always_healthy (.threw "boom")).2.2.1.mp h) (by decide)
  · exact h

/-- C10: a health request whose method is neither GET nor OPTIONS (for
example POST) is answered 405 with the method-error body, not the 200
healthy response. -/
theorem healthHandler_bad_method (method : String) (probe : ProbeOutcome)
    (hget : method ≠ "GET") (hopt : method ≠ "OPTIONS") :
    healthHandler method probe = ⟨405, .methodError "Method not allowed"⟩ := by
  rw [healthHandler.eq_def, if_neg hopt, if_pos hget]

/-- Witness for C10: a POST request is answered 405. -/
theorem healthHandler_bad_method_witness :
    healthHandler "POST" (.responded true) = ⟨405, .methodError "Method not allowed"⟩ :=
  healthHandler_bad_method "POST" (.responded true) (by decide) (by decide)

end FinMaster
